import Mathlib

/-!
Verification of the awesh command-dispatch pipeline against its
natural-language specification.

The development shallowly embeds the C sources:
  * `src/AI/awesh/security_agent.c` — the transparent security proxy,
  * `src/awesh_sandbox.c`           — the read-only PTY sandbox validator,
  * `src/awesh.c`                   — the frontend dispatcher.

Byte strings are modelled as `List Char` (each `Char` standing for one
byte of the C buffer; payloads are the C-string view of the buffers, i.e.
the bytes before the first NUL terminator unless stated otherwise).
-/

set_option maxRecDepth 10000

/-! ## Basic byte/string utilities shared by the embeddings -/

/-- C `isspace` in the C locale (the byte class matched by the glibc
regex escape `\s`, i.e. `[[:space:]]`): space, `\t`, `\n`, `\v`, `\f`, `\r`. -/
def isSpaceCh (c : Char) : Bool :=
  c = ' ' || c = '\t' || c = '\n' || c = Char.ofNat 11 || c = Char.ofNat 12 || c = '\r'

/-- C `isdigit`. -/
def isDigitCh (c : Char) : Bool :=
  '0' ≤ c && c ≤ '9'

/-- Numeric value of a digit character. -/
def digitVal (c : Char) : Nat := c.toNat - '0'.toNat

/-- Digit character for a value `< 10`. -/
def digitChar10 (n : Nat) : Char := Char.ofNat ('0'.toNat + n)

/-- Fuel-driven digit extraction (structural recursion so that the kernel
can evaluate it; `fuel ≥ n` always suffices since `n / 10 < n`). -/
def digitsRevFuel : Nat → Nat → List Char
  | 0, _ => []
  | f + 1, n => if n = 0 then [] else digitChar10 (n % 10) :: digitsRevFuel f (n / 10)

/-- Decimal digits of `n`, least-significant first (`[]` for `0`). -/
def digitsRev (n : Nat) : List Char := digitsRevFuel n n

/-- Decimal rendering of a natural number, as produced by `snprintf %u`. -/
def natToDigits (n : Nat) : List Char :=
  if n = 0 then ['0'] else (digitsRev n).reverse

/-- Decimal rendering of an integer, as produced by `snprintf %d`. -/
def intToDigits (i : Int) : List Char :=
  if i < 0 then '-' :: natToDigits i.natAbs else natToDigits i.toNat

/-- Accumulating decimal parser: consumes leading digits, stops at the
first non-digit (the digit-consuming loop inside C `atoi`). -/
def parseNatAcc : Nat → List Char → Nat
  | acc, [] => acc
  | acc, c :: t => if isDigitCh c then parseNatAcc (10 * acc + digitVal c) t else acc

/-- The sign-and-digits tail of C `atoi` (after whitespace skipping). -/
def atoiSigned : List Char → Int
  | [] => 0
  | c :: t =>
    if c = '-' then - (parseNatAcc 0 t : Int)
    else if c = '+' then (parseNatAcc 0 t : Int)
    else (parseNatAcc 0 (c :: t) : Int)

/-- C `atoi`: skip leading whitespace, optional sign, then digits. -/
def atoiChars (s : List Char) : Int :=
  atoiSigned (s.dropWhile isSpaceCh)

/-- The C-string view of a byte buffer: the bytes before the first NUL.
`strlen`/`strcpy`-style functions see exactly this list. -/
def cstr (s : List Char) : List Char := s.takeWhile (fun c => c ≠ Char.ofNat 0)

/-- A byte string containing no NUL byte. -/
def noNul (s : List Char) : Bool := s.all (fun c => c ≠ Char.ofNat 0)

/-- `strstr` search: index of the first occurrence of `pat` in the
suffix scanned so far, counting from `i`. -/
def findSubAux (pat : List Char) : List Char → Nat → Option Nat
  | [], i => if pat.isPrefixOf ([] : List Char) then some i else none
  | c :: t, i => if pat.isPrefixOf (c :: t) then some i else findSubAux pat t (i + 1)

/-- `strstr`: index of the first occurrence of `pat` in `s`. -/
def findSub (pat s : List Char) : Option Nat := findSubAux pat s 0

/-- `strstr` viewed as a containment test (non-NULL result). -/
def containsSub (pat s : List Char) : Bool := (findSub pat s).isSome

/-- `missesIn pat text = true` certifies that `pat` disagrees with `text`
at some position covered by both, hence `pat` is not a prefix of
`text ++ B` for any continuation `B`. -/
def missesIn : List Char → List Char → Bool
  | [], _ => false
  | _ :: _, [] => false
  | p :: ps, t :: ts => if p = t then missesIn ps ts else true

/-- `pat` definitely starts no occurrence anywhere strictly inside `A`
(whatever follows `A`). -/
def noEarlyMarker (pat A : List Char) : Bool :=
  (List.range A.length).all (fun j => missesIn pat (A.drop j))

/-! ## Security proxy (`src/AI/awesh/security_agent.c`)

The pattern tiers are glibc extended regexes over the byte classes
actually used (`\s+` = one-or-more `[[:space:]]`, everything else
literal).  A compiled pattern is modelled as a list of chunks. -/

/-- One regex chunk: a literal byte or `\s+`. -/
inductive RChunk where
  | ch (c : Char)
  | ws
deriving DecidableEq

/-- Does the chunk list match a prefix of `s`?  (`\s+` backtracks, which
coincides with `regexec`'s existence-of-a-match semantics.) -/
def matchFrom : List RChunk → List Char → Bool
  | [], _ => true
  | _ :: _, [] => false
  | RChunk.ch a :: ps, c :: s => a = c && matchFrom ps s
  | RChunk.ws :: ps, c :: s => isSpaceCh c && (matchFrom ps s || matchFrom (RChunk.ws :: ps) s)

/-- Unanchored `regexec`: does the pattern match anywhere in `s`? -/
def containsMatch (pat : List RChunk) : List Char → Bool
  | [] => matchFrom pat []
  | c :: s => matchFrom pat (c :: s) || containsMatch pat s

/-- Literal chunk run. -/
def litChunks (s : String) : List RChunk := s.toList.map RChunk.ch

/-- The DANGEROUS tier compiled in `init_security_patterns`. -/
def dangerous_patterns : List (List RChunk) :=
  [ litChunks "rm" ++ [RChunk.ws] ++ litChunks "-rf" ++ [RChunk.ws] ++ litChunks "/",
    litChunks "sudo" ++ [RChunk.ws] ++ litChunks "rm" ++ [RChunk.ws] ++ litChunks "-rf",
    litChunks "dd" ++ [RChunk.ws] ++ litChunks "if=/dev/urandom",
    litChunks "mkfs" ++ [RChunk.ws],
    litChunks "fdisk" ++ [RChunk.ws] ]

/-- The SENSITIVE tier compiled in `init_security_patterns`. -/
def sensitive_patterns : List (List RChunk) :=
  [ litChunks "passwd" ++ [RChunk.ws],
    litChunks "chmod" ++ [RChunk.ws] ++ litChunks "777",
    litChunks "chown" ++ [RChunk.ws],
    litChunks "iptables" ++ [RChunk.ws],
    litChunks "systemctl" ++ [RChunk.ws] ]

/-- System-command test at the top of `validate_command`:
`CWD:` by `strncmp(…,4)`, `STATUS` by `strcmp` (exact equality),
`BASH_FAILED:` by `strncmp(…,12)`. -/
def isSystemCommand (cmd : List Char) : Bool :=
  "CWD:".toList.isPrefixOf cmd || cmd = "STATUS".toList ||
    "BASH_FAILED:".toList.isPrefixOf cmd

/-- Payload matches some DANGEROUS pattern. -/
def matchesDangerous (cmd : List Char) : Bool :=
  dangerous_patterns.any (fun p => containsMatch p cmd)

/-- Payload matches some SENSITIVE pattern. -/
def matchesSensitive (cmd : List Char) : Bool :=
  sensitive_patterns.any (fun p => containsMatch p cmd)

/-- `validate_command` (security_agent.c:96-135): `true` = allow. -/
def validate_command (cmd : List Char) : Bool :=
  if isSystemCommand cmd then true
  else if matchesDangerous cmd then false
  else if matchesSensitive cmd then false
  else if containsSub "rm".toList cmd && containsSub "-rf".toList cmd then false
  else true

/-- The fixed refusal sent to the frontend on a block. -/
def securityBlockedMsg : List Char :=
  "SECURITY_BLOCKED: Command blocked by security agent\n".toList

/-- What one frontend→backend payload produces on each side of the proxy. -/
structure ForwardResult where
  toBackend : List Char
  toFrontend : List Char
deriving DecidableEq

/-- The frontend→backend arm of the relay loop (security_agent.c:296-322):
an approved payload is forwarded to the backend byte-exact; a blocked one
is dropped and the fixed refusal is written back to the frontend side. -/
def proxy_forward_step (payload : List Char) : ForwardResult :=
  if validate_command payload then ⟨payload, []⟩
  else ⟨[], securityBlockedMsg⟩

/-! ## Sandbox validator (`src/awesh_sandbox.c`) -/

/-- `strtok` delimiter set `" \t"` used by the word counter. -/
def isTokDelim (c : Char) : Bool := c = ' ' || c = '\t'

/-- Number of `strtok " \t"` tokens; `inTok` tracks whether the scan is
inside a token. -/
def numTokensAux : List Char → Bool → Nat
  | [], _ => 0
  | c :: t, inTok =>
    if isTokDelim c then numTokensAux t false
    else (if inTok then 0 else 1) + numTokensAux t true

/-- The word counter of `execute_command_in_sandbox` (awesh_sandbox.c:558-566):
`strtok(cmd, " \t")` tokens, counted up to the hard cap of 10. -/
def countWords (cmd : List Char) : Nat := min (numTokensAux cmd false) 10

/-- The shell-error indicator substrings tested with `strstr`
(awesh_sandbox.c:549-555). -/
def errorIndicators : List (List Char) :=
  [ "command not found".toList, "Permission denied".toList,
    "No such file or directory".toList, "bash:".toList, "sh:".toList,
    "error:".toList, "Error:".toList ]

/-- Captured output contains some shell-error indicator. -/
def containsErrorIndicator (out : List Char) : Bool :=
  errorIndicators.any (fun ind => containsSub ind out)

/-- Index of the start of the line containing position `i` (the backward
scan to the previous newline, awesh_sandbox.c:585-588). -/
def lineStart (out : List Char) (i : Nat) : Nat :=
  i - ((out.take i).reverse.takeWhile (fun c => c ≠ '\n')).length

/-- Removal of the `EXIT_CODE:` line from the captured output
(awesh_sandbox.c:583-603): cut from the start of its line to just past
the next newline (or the end of the buffer). -/
def removeExitCodeLine (out : List Char) (i : Nat) : List Char :=
  let ls := lineStart out i
  let le := match findSub ['\n'] (out.drop i) with
    | some j => i + j + 1
    | none => out.length
  out.take ls ++ out.drop le

/-- The verdict a single sandbox validation produces: the wire exit code,
the stdout buffer contents published to the mmap record, and whether a
Ctrl-C byte was written to the PTY session. -/
structure SandboxVerdict where
  exitCode : Int
  stdoutOut : List Char
  sentCtrlC : Bool
deriving DecidableEq

/-- The classification tail of `execute_command_in_sandbox`
(awesh_sandbox.c:521-608), as a function of whether the prompt sentinel
was detected, the filtered captured output, and the original command:
  * no sentinel ⇒ Ctrl-C is sent and the verdict is `-103` with the
    fixed `INTERACTIVE_COMMAND` payload;
  * an error indicator in the output ⇒ `-113` when the command has three
    or more words, `-109` otherwise;
  * else an explicit `EXIT_CODE:` marker is parsed with `atoi` and its
    line removed from the output; absent a marker the code is `0`. -/
def sandbox_classify (prompt_detected : Bool) (output cmd : List Char) :
    SandboxVerdict :=
  if prompt_detected = false then
    ⟨-103, "INTERACTIVE_COMMAND".toList, true⟩
  else if containsErrorIndicator output then
    if 3 ≤ countWords cmd then ⟨-113, output, false⟩ else ⟨-109, output, false⟩
  else
    match findSub "EXIT_CODE:".toList output with
    | some i => ⟨atoiChars (output.drop (i + 10)), removeExitCodeLine output i, false⟩
    | none => ⟨0, output, false⟩

/-! ### The mmap verdict record writer (`write_result_to_mmap`) -/

/-- 1 MiB shared region. -/
def MMAP_SIZE : Nat := 1024 * 1024

/-- One guarded `snprintf` append: the piece is appended and the budget
decreased only if `0 < written ∧ written < remaining`. -/
def wHeader (piece : List Char) (st : List Char × Nat) : List Char × Nat :=
  if 0 < piece.length ∧ piece.length < st.2 then (st.1 ++ piece, st.2 - piece.length) else st

/-- The guarded payload `memcpy`: copied only if `0 < len ∧ len < remaining`. -/
def wPayload (piece : List Char) (st : List Char × Nat) : List Char × Nat :=
  if 0 < piece.length ∧ piece.length < st.2 then (st.1 ++ piece, st.2 - piece.length) else st

/-- The guarded trailing-newline byte: written only if `0 < remaining`. -/
def wNewline (st : List Char × Nat) : List Char × Nat :=
  if 0 < st.2 then (st.1 ++ ['\n'], st.2 - 1) else st

/-- One payload block of `write_result_to_mmap`: the `LEN`-carrying
header (one `snprintf`, guarded by `0 < written < remaining`), then — only
when the header fit — the guarded payload `memcpy` and the guarded
trailing newline. -/
def writeStep2 (hdr payload : List Char) (st : List Char × Nat) : List Char × Nat :=
  if 0 < hdr.length ∧ hdr.length < st.2 then
    wNewline (wPayload payload (st.1 ++ hdr, st.2 - hdr.length))
  else st

/-- `write_result_to_mmap` (awesh_sandbox.c:86-148): the byte content of
the shared region between offset 0 and the final NUL terminator.  The
payload arguments are received as C strings, so the code sees only their
`cstr` views (`strlen` stops at the first NUL).  Each piece is appended
under its guard against the remaining budget `MMAP_SIZE - 1`; a payload
and its newline are attempted only when their header fit. -/
def write_result_to_mmap (exit_code : Int) (stdout_content stderr_content : List Char) :
    List Char :=
  let stdout_str := cstr stdout_content
  let stderr_str := cstr stderr_content
  let st0 : List Char × Nat := ([], MMAP_SIZE - 1)
  let st1 := wHeader ("EXIT_CODE:".toList ++ intToDigits exit_code ++ ['\n']) st0
  let st2 := writeStep2
    ("STDOUT_LEN:".toList ++ natToDigits stdout_str.length ++ "\nSTDOUT:".toList)
    stdout_str st1
  let st3 := writeStep2
    ("STDERR_LEN:".toList ++ natToDigits stderr_str.length ++ "\nSTDERR:".toList)
    stderr_str st2
  st3.1

/-! ### The request handler (`handle_client_request`) -/

/-- Observable actions of one request: running the received command in
the sandbox session, writing a verdict record to the shared region,
sending an acknowledgment byte string on the socket. -/
inductive SEvent where
  | execCmd (cmd : List Char)
  | writeMmap (exitCode : Int) (stdoutPay stderrPay : List Char)
  | sendAck (ack : List Char)
deriving DecidableEq

/-- `handle_client_request` (awesh_sandbox.c:698-727) as its trace of
observable actions.  `recvd = none` models `recv` returning `0` or an
error; `execRes = none` models `execute_command_in_sandbox` returning
`-1` (sandbox session not ready or PTY write failure); `some v` models a
successful validation with verdict `v` (the stderr buffer stays the
zeroed buffer, hence the empty stderr payload). -/
def handle_client_request (recvd : Option (List Char))
    (execRes : Option SandboxVerdict) : List SEvent :=
  match recvd with
  | none => []
  | some cmd =>
    match execRes with
    | some v => [.execCmd cmd, .writeMmap v.exitCode v.stdoutOut [], .sendAck "OK".toList]
    | none =>
      [.execCmd cmd, .writeMmap (-1) [] "Sandbox execution failed".toList,
        .sendAck "ERROR".toList]

/-! ### The output-accumulation loop (awesh_sandbox.c:379-436) -/

/-- Mutable state of the accumulation loop: `attempts`,
`consecutive_empty_reads`, `prompt_detected`, and the accumulated output
(whose length is the C `total_len`). -/
structure LoopSt where
  attempts : Nat
  emptyReads : Nat
  promptDetected : Bool
  acc : List Char
deriving DecidableEq

/-- Initial loop state. -/
def loopInit : LoopSt := ⟨0, 0, false, []⟩

/-- One `select`/`read` outcome: a data chunk (`result > 0`,
`bytes_read > 0`), an empty read (`result > 0`, `bytes_read ≤ 0`), or a
timeout (`result ≤ 0`). -/
inductive LoopEv where
  | data (chunk : List Char)
  | emptyRead
  | timeout

/-- Upper bound `MAX_RESPONSE_LEN` on the output buffer. -/
def MAX_RESPONSE_LEN : Nat := 65536

/-- The attempt budget `max_attempts`. -/
def max_attempts : Nat := 50

/-- One iteration of the accumulation loop: `none` means the loop has
exited (the `while` condition failed or a `break` ran), `some st` means
it continues with state `st`.  Mirrors awesh_sandbox.c:394-436:
  * a data chunk is appended when it fits, resets the empty-read count,
    and — only when it contains the sentinel — sets `promptDetected` and
    increments `attempts`;
  * an empty read increments the consecutive-empty count and breaks at 10;
  * a timeout breaks when output was seen and the sentinel was detected,
    otherwise increments `attempts`. -/
def loopStep (ps1 : List Char) (st : LoopSt) (e : LoopEv) : Option LoopSt :=
  if max_attempts ≤ st.attempts then none
  else
    match e with
    | .data chunk =>
      let acc' := if st.acc.length + chunk.length < MAX_RESPONSE_LEN - 1
                  then st.acc ++ chunk else st.acc
      if containsSub ps1 chunk then
        some ⟨st.attempts + 1, 0, true, acc'⟩
      else
        some ⟨st.attempts, 0, st.promptDetected, acc'⟩
    | .emptyRead =>
      if 10 ≤ st.emptyReads + 1 then none
      else some ⟨st.attempts, st.emptyReads + 1, st.promptDetected, st.acc⟩
    | .timeout =>
      if 0 < st.acc.length ∧ st.promptDetected = true then none
      else some ⟨st.attempts + 1, st.emptyReads, st.promptDetected, st.acc⟩

/-- Loop state after `n` iterations against the event source `evs`
(`none` once the loop has exited). -/
def loopRun (ps1 : List Char) (evs : Nat → LoopEv) : Nat → Option LoopSt
  | 0 => some loopInit
  | n + 1 =>
    match loopRun ps1 evs n with
    | none => none
    | some st => loopStep ps1 st (evs n)

/-! ## Frontend dispatcher (`src/awesh.c`) -/

/-- The frontend's read of the shared region (awesh.c:737-751):
`strncpy(response, mmap_ptr, 4095)` — at most 4095 bytes of the
(NUL-free) record. -/
def read_mmap_response (region : List Char) : List Char := region.take 4095

/-- The `EXIT_CODE` parse in `test_command_in_sandbox` (awesh.c:1806-1809):
`strstr` for the marker, `atoi` of what follows; `0` when absent. -/
def parse_exit_code (response : List Char) : Int :=
  match findSub "EXIT_CODE:".toList response with
  | some i => atoiChars (response.drop (i + 10))
  | none => 0

/-- The `STDERR` parse in `test_command_in_sandbox` (awesh.c:1812-1820):
find `STDERR_LEN:`, `atoi` its count, find `STDERR:` from there, and
copy that many bytes when `0 < len < 4096`; otherwise the stderr buffer
stays empty. -/
def parse_stderr (response : List Char) : List Char :=
  match findSub "STDERR_LEN:".toList response with
  | none => []
  | some i =>
    let line := response.drop i
    let len := atoiChars (line.drop 11)
    match findSub "STDERR:".toList line with
    | none => []
    | some j =>
      if 0 < len ∧ len < 4096 then ((line.drop (j + 7)).take len.toNat) else []

/-- The verdict-to-result mapping at the tail of
`test_command_in_sandbox` (awesh.c:1834-1854). -/
def frontend_route (exit_code : Int) (stderr_content : List Char) : Int :=
  if exit_code = -103 ∨ exit_code = -113 ∨ exit_code = -109 then exit_code
  else if exit_code = 0 ∧ stderr_content = [] then 0
  else -2

/-- `test_command_in_sandbox` (awesh.c:1792-1854) on a successfully read
response: `INTERACTIVE_COMMAND` anywhere short-circuits to `-103`;
otherwise the parsed exit code and stderr are routed. -/
def test_command_in_sandbox (response : List Char) : Int :=
  if containsSub "INTERACTIVE_COMMAND".toList response then -103
  else frontend_route (parse_exit_code response) (parse_stderr response)

/-- What the dispatcher does with a sandbox result after a failed direct
run (awesh.c:2074-2125). -/
inductive DispatchAction where
  | printExitError
  | routeAI
  | runPTY
  | printNotFound
deriving DecidableEq

/-- The sandbox-result branch of `execute_command_securely`
(awesh.c:2074-2125): `0` prints the direct run's exit-code error,
`-113` routes to AI, `-103` runs the command on a TTY, `-109` prints
"not found", and anything else routes to AI. -/
def dispatch_after_fail (sandbox_result : Int) : DispatchAction :=
  if sandbox_result = 0 then .printExitError
  else if sandbox_result = -113 then .routeAI
  else if sandbox_result = -103 then .runPTY
  else if sandbox_result = -109 then .printNotFound
  else .routeAI

/-! ### The AI-query heuristic (`is_ai_query`, awesh.c:1945-2003) -/

/-- The NL-indicator substrings. -/
def ai_indicators : List String :=
  [ "write", "create", "generate", "explain", "analyze", "summarize",
    "what", "how", "why", "when", "where", "who", "which",
    "help", "assist", "suggest", "recommend", "find", "search",
    "poem", "story", "code", "script", "function", "class",
    "error", "bug", "issue", "problem", "fix", "solution" ]

/-- The known-shell first words. -/
def shell_commands : List String :=
  [ "ls", "cd", "pwd", "cat", "grep", "find", "ps", "top", "kill",
    "mkdir", "rmdir", "rm", "cp", "mv", "chmod", "chown", "sudo",
    "git", "docker", "kubectl", "ssh", "scp", "rsync", "tar", "gzip",
    "vim", "nano", "emacs", "less", "more", "head", "tail", "sort",
    "awk", "sed", "cut", "uniq", "wc", "diff", "patch", "make" ]

/-- C `tolower` in the C locale on ASCII bytes. -/
def asciiLower (c : Char) : Char :=
  if 'A' ≤ c ∧ c ≤ 'Z' then Char.ofNat (c.toNat + 32) else c

/-- `sscanf(cmd, "%255s", …)`: skip `isspace` bytes, then up to 255
non-space bytes. -/
def firstWord (cmd : List Char) : List Char :=
  ((cmd.dropWhile isSpaceCh).takeWhile (fun c => !isSpaceCh c)).take 255

/-- `is_ai_query` (awesh.c:1945-2003), applied in code order:
  1. any NL-indicator substring in the lowercased copy (the `strncpy`
     into the 1024-byte buffer keeps at most 1023 bytes) ⇒ AI;
  2. a `?` anywhere ⇒ AI;
  3. any shell metacharacter ⇒ NOT AI;
  4. first word in the known-shell set ⇒ NOT AI;
  5. default ⇒ NOT AI. -/
def is_ai_query (cmd : List Char) : Bool :=
  let lower := (cmd.take 1023).map asciiLower
  if ai_indicators.any (fun ind => containsSub ind.toList lower) then true
  else if cmd.contains '?' then true
  else if cmd.contains '|' || cmd.contains '>' || cmd.contains '<' ||
          cmd.contains '&' || cmd.contains ';' || cmd.contains '\x60' then false
  else if shell_commands.any (fun w => firstWord cmd = w.toList) then false
  else false

/-! ## Theorems for claims C1 and C2 -/

/-- C1: a frontend→backend payload that is not a system command and
matches a DANGEROUS pattern is not forwarded at all; the frontend side
alone receives the fixed `SECURITY_BLOCKED` refusal. -/
theorem C1_dangerous_blocked (payload : List Char)
    (hsys : isSystemCommand payload = false)
    (hdng : matchesDangerous payload = true) :
    proxy_forward_step payload = ⟨[], securityBlockedMsg⟩ := by
  unfold proxy_forward_step validate_command
  rw [hsys, hdng]
  simp

/-- Witness for C1 at the concrete payload `"rm -rf /"`. -/
theorem C1_dangerous_blocked_witness :
    isSystemCommand "rm -rf /".toList = false ∧
    matchesDangerous "rm -rf /".toList = true ∧
    proxy_forward_step "rm -rf /".toList = ⟨[], securityBlockedMsg⟩ :=
  ⟨by decide, by decide, C1_dangerous_blocked _ (by decide) (by decide)⟩

/-- C2 counterexample: `"STATUS rm -rf /"` begins with `STATUS`, yet the
proxy blocks it instead of forwarding it unchanged, because the code
compares `STATUS` with `strcmp` (exact equality), not as a prefix. -/
theorem C2_status_prefix_blocked :
    "STATUS".toList.isPrefixOf "STATUS rm -rf /".toList = true ∧
    proxy_forward_step "STATUS rm -rf /".toList ≠
      ⟨"STATUS rm -rf /".toList, []⟩ := by
  constructor
  · decide
  · decide

/-- C2 (amended): a payload that begins with `CWD:`, is exactly `STATUS`,
or begins with `BASH_FAILED:` is never pattern-blocked and is forwarded
to the backend byte-exact, whatever its body contains. -/
theorem C2_system_commands_forwarded (payload : List Char)
    (hsys : isSystemCommand payload = true) :
    proxy_forward_step payload = ⟨payload, []⟩ := by
  unfold proxy_forward_step validate_command
  rw [hsys]
  simp

/-- Witness for C2 (amended) at the concrete payload
`"BASH_FAILED:1:sudo rm -rf /tmp:/tmp/x"`, whose body matches the
DANGEROUS tier. -/
theorem C2_system_commands_forwarded_witness :
    isSystemCommand "BASH_FAILED:1:sudo rm -rf /tmp:/tmp/x".toList = true ∧
    proxy_forward_step "BASH_FAILED:1:sudo rm -rf /tmp:/tmp/x".toList =
      ⟨"BASH_FAILED:1:sudo rm -rf /tmp:/tmp/x".toList, []⟩ :=
  ⟨by decide, C2_system_commands_forwarded _ (by decide)⟩

/-! ## Theorems for claims C3, C4, C5, C7 -/

/-- C3: when the sandbox saw the prompt sentinel and the captured output
contains a shell-error indicator, the wire exit code is `-109` for
commands of fewer than 3 (space/tab-separated) words and `-113` for 3 or
more. -/
theorem C3_error_verdict_by_wordcount (output cmd : List Char)
    (herr : containsErrorIndicator output = true) :
    (sandbox_classify true output cmd).exitCode =
      if countWords cmd < 3 then -109 else -113 := by
  unfold sandbox_classify
  rw [if_neg (by simp), if_pos herr]
  by_cases h : 3 ≤ countWords cmd
  · rw [if_pos h, if_neg (by omega)]
  · rw [if_neg h, if_pos (by omega)]

/-- Witness for C3: `command not found` output with the 2-word command
`foobar --baz` yields `-109`. -/
theorem C3_error_verdict_by_wordcount_witness :
    containsErrorIndicator "bash: foobar: command not found\n".toList = true ∧
    (sandbox_classify true "bash: foobar: command not found\n".toList
        "foobar --baz".toList).exitCode =
      if countWords "foobar --baz".toList < 3 then -109 else -113 :=
  ⟨by decide, C3_error_verdict_by_wordcount _ _ (by decide)⟩

/-- C4 counterexample: a validation whose output carries the explicit
marker `EXIT_CODE:2`, no error indicator, and a seen sentinel produces
wire code `2`; the frontend maps that verdict record to `-2`, and the
dispatcher routes the command to AI — not to the exit-code error print
the claim requires. -/
theorem C4_nonzero_marker_counterexample :
    containsErrorIndicator "EXIT_CODE:2\n".toList = false ∧
    (sandbox_classify true "EXIT_CODE:2\n".toList "foo bar".toList).exitCode = 2 ∧
    test_command_in_sandbox (read_mmap_response
      (write_result_to_mmap 2 [] [])) = -2 ∧
    dispatch_after_fail (-2) = DispatchAction.routeAI ∧
    DispatchAction.routeAI ≠ DispatchAction.printExitError := by
  refine ⟨?_, ?_, ?_, ?_, ?_⟩ <;> decide

/-- C4 (amended): with a sentinel seen, no error indicator, and an
explicit `EXIT_CODE:` marker, the sandbox reports the code parsed from
the first marker occurrence verbatim, and the routing of that code is
total and deterministic: `0` is classified VALID (the dispatcher prints
the exit-code error for the already-failed direct run); a parsed code
equal to the special wire value `-103` or `-109` is indistinguishable
from the sandbox's own verdict and is routed to PTY execution or the
not-found message respectively; every other nonzero code — including
`-113`, which coincides with the AI-help wire value — is routed to AI. -/
theorem C4_marker_routing (output cmd : List Char) (i : Nat)
    (hne : containsErrorIndicator output = false)
    (hfind : findSub "EXIT_CODE:".toList output = some i) :
    (sandbox_classify true output cmd).exitCode = atoiChars (output.drop (i + 10)) ∧
    dispatch_after_fail (frontend_route (atoiChars (output.drop (i + 10))) []) =
      (if atoiChars (output.drop (i + 10)) = 0 then DispatchAction.printExitError
       else if atoiChars (output.drop (i + 10)) = -103 then DispatchAction.runPTY
       else if atoiChars (output.drop (i + 10)) = -109 then DispatchAction.printNotFound
       else DispatchAction.routeAI) := by
  constructor
  · unfold sandbox_classify
    rw [if_neg (by simp), if_neg (by simp [hne]), hfind]
  · by_cases h0 : atoiChars (output.drop (i + 10)) = 0
    · rw [h0]
      decide
    · by_cases h103 : atoiChars (output.drop (i + 10)) = -103
      · rw [h103]
        decide
      · by_cases h113 : atoiChars (output.drop (i + 10)) = -113
        · rw [h113]
          decide
        · by_cases h109 : atoiChars (output.drop (i + 10)) = -109
          · rw [h109]
            decide
          · rw [show frontend_route (atoiChars (output.drop (i + 10))) [] = -2 from by
              unfold frontend_route
              rw [if_neg (by tauto), if_neg (by tauto)]]
            rw [if_neg h0, if_neg h103, if_neg h109]
            decide

/-- Witness for C4 (amended) at output `"EXIT_CODE:0\n"` (code `0`). -/
theorem C4_marker_routing_witness :
    containsErrorIndicator "EXIT_CODE:0\n".toList = false ∧
    findSub "EXIT_CODE:".toList "EXIT_CODE:0\n".toList = some 0 ∧
    ((sandbox_classify true "EXIT_CODE:0\n".toList "ls".toList).exitCode =
        atoiChars ("EXIT_CODE:0\n".toList.drop 10) ∧
      dispatch_after_fail (frontend_route (atoiChars ("EXIT_CODE:0\n".toList.drop 10)) []) =
        (if atoiChars ("EXIT_CODE:0\n".toList.drop 10) = 0 then DispatchAction.printExitError
         else if atoiChars ("EXIT_CODE:0\n".toList.drop 10) = -103 then DispatchAction.runPTY
         else if atoiChars ("EXIT_CODE:0\n".toList.drop 10) = -109 then
           DispatchAction.printNotFound
         else DispatchAction.routeAI)) :=
  ⟨by decide, by decide, C4_marker_routing _ _ 0 (by decide) (by decide)⟩

/-- C5 counterexample: `"cat how.txt"` has no `?`, its first word `cat`
is in the known-shell set, yet the heuristic classifies it as an AI
query, because the NL-indicator substring rule (`how`) runs before the
known-shell rule. -/
theorem C5_known_shell_counterexample :
    "cat how.txt".toList.contains '?' = false ∧
    firstWord "cat how.txt".toList = "cat".toList ∧
    "cat" ∈ shell_commands ∧
    is_ai_query "cat how.txt".toList = true := by
  refine ⟨?_, ?_, ?_, ?_⟩ <;> decide

/-- C5 (amended): the NL-indicator rule is applied before the known-shell
rule; for a line with no `?` and no NL-indicator substring in its
lowercased copy whose first word is a known shell command, the heuristic
answers NOT AI. -/
theorem C5_known_shell_not_ai (cmd : List Char)
    (hind : ai_indicators.any
      (fun ind => containsSub ind.toList ((cmd.take 1023).map asciiLower)) = false)
    (hq : cmd.contains '?' = false)
    (hshell : shell_commands.any (fun w => firstWord cmd = w.toList) = true) :
    is_ai_query cmd = false := by
  simp only [is_ai_query, hind, hq, Bool.false_eq_true, if_false]
  split <;> rfl

/-- Witness for C5 (amended) at the line `"ls -la"`. -/
theorem C5_known_shell_not_ai_witness :
    ai_indicators.any (fun ind => containsSub ind.toList
      (("ls -la".toList.take 1023).map asciiLower)) = false ∧
    "ls -la".toList.contains '?' = false ∧
    shell_commands.any (fun w => firstWord "ls -la".toList = w.toList) = true ∧
    is_ai_query "ls -la".toList = false :=
  ⟨by decide, by decide, by decide,
    C5_known_shell_not_ai _ (by decide) (by decide) (by decide)⟩

/-- C7: when the prompt sentinel is never observed, the sandbox sends a
Ctrl-C, reports wire code `-103` with the fixed `INTERACTIVE_COMMAND`
payload (never the `-2` other-failure route), and the frontend maps the
resulting record to `-103`, which the dispatcher runs on a TTY. -/
theorem C7_no_sentinel_is_interactive (output cmd : List Char) :
    sandbox_classify false output cmd =
      ⟨-103, "INTERACTIVE_COMMAND".toList, true⟩ ∧
    test_command_in_sandbox (read_mmap_response
      (write_result_to_mmap (-103) "INTERACTIVE_COMMAND".toList [])) = -103 ∧
    dispatch_after_fail (-103) = DispatchAction.runPTY := by
  refine ⟨rfl, by decide, by decide⟩

/-! ## Theorems for claims C9 and C10 -/

/-- C9: a request that delivers a command produces exactly the trace
"execute, then one verdict-record write, then one acknowledgment" —
one record and one ack, with the write before the ack, in both the
success and the failure arm. -/
theorem C9_one_write_then_one_ack (cmd : List Char) (execRes : Option SandboxVerdict) :
    ∃ e o r a, handle_client_request (some cmd) execRes =
      [SEvent.execCmd cmd, SEvent.writeMmap e o r, SEvent.sendAck a] := by
  cases execRes with
  | some v => exact ⟨v.exitCode, v.stdoutOut, [], "OK".toList, rfl⟩
  | none => exact ⟨-1, [], "Sandbox execution failed".toList, "ERROR".toList, rfl⟩

/-- C10: a connection that delivers zero bytes (recv returns 0 or an
error) makes the handler return with an empty trace: nothing executed,
no verdict record written (the stored record stays as it was), and no
acknowledgment sent. -/
theorem C10_zero_byte_recv_no_action (execRes : Option SandboxVerdict) :
    handle_client_request none execRes = [] := rfl

/-! ## Theorem for claim C6 -/

/-- C6 (refuting the termination claim): against an event source that
delivers a data chunk without the prompt sentinel on every wakeup — a
command that continuously produces output — the accumulation loop never
exits: `attempts` is only incremented on select timeouts or after the
sentinel is seen, so the attempt budget never fires. -/
theorem C6_continuous_output_never_exits (n : Nat) :
    (loopRun "$ ".toList (fun _ => LoopEv.data ['x']) n).isSome = true := by
  have hc : containsSub ['$', ' '] ['x'] = false := by decide
  have step : ∀ a : List Char, ∃ a',
      loopStep "$ ".toList ⟨0, 0, false, a⟩ (LoopEv.data ['x']) =
        some ⟨0, 0, false, a'⟩ := by
    intro a
    by_cases hfit : a.length + 1 < 65535
    · exact ⟨a ++ ['x'], by simp [loopStep, max_attempts, MAX_RESPONSE_LEN, hc, hfit]⟩
    · exact ⟨a, by simp [loopStep, max_attempts, MAX_RESPONSE_LEN, hc, hfit]⟩
  suffices h : ∃ acc, loopRun "$ ".toList (fun _ => LoopEv.data ['x']) n =
      some ⟨0, 0, false, acc⟩ by
    obtain ⟨acc, hacc⟩ := h
    rw [hacc]
    rfl
  induction n with
  | zero => exact ⟨[], rfl⟩
  | succ k ih =>
    obtain ⟨acc, hacc⟩ := ih
    obtain ⟨a', ha'⟩ := step acc
    refine ⟨a', ?_⟩
    simp only [loopRun]
    rw [hacc]
    exact ha'

/-! ## Helper lemmas on digits and decimal parsing -/

theorem digitsRevFuel_irrel : ∀ f g n : Nat, n ≤ f → n ≤ g →
    digitsRevFuel f n = digitsRevFuel g n := by
  intro f
  induction f with
  | zero =>
    intro g n hf _
    interval_cases n
    cases g <;> simp [digitsRevFuel]
  | succ f ih =>
    intro g n hf hg
    cases g with
    | zero =>
      interval_cases n
      simp [digitsRevFuel]
    | succ g =>
      by_cases hn : n = 0
      · simp [digitsRevFuel, hn]
      · have hdiv : n / 10 < n := Nat.div_lt_self (Nat.pos_of_ne_zero hn) (by omega)
        simp only [digitsRevFuel, hn, if_false]
        rw [ih g (n / 10) (by omega) (by omega)]

theorem digitsRev_eq (n : Nat) :
    digitsRev n = if n = 0 then [] else digitChar10 (n % 10) :: digitsRev (n / 10) := by
  by_cases hn : n = 0
  · simp [digitsRev, hn, digitsRevFuel]
  · obtain ⟨m, rfl⟩ : ∃ m, n = m + 1 := ⟨n - 1, by omega⟩
    have hdiv : (m + 1) / 10 < m + 1 := Nat.div_lt_self (by omega) (by omega)
    simp only [digitsRev, digitsRevFuel, hn, if_false]
    congr 1
    exact digitsRevFuel_irrel m ((m + 1) / 10) ((m + 1) / 10) (by omega) (le_refl _)

theorem digitsRev_shape : ∀ n : Nat, ∀ c ∈ digitsRev n, ∃ m, m < 10 ∧ c = digitChar10 m := by
  intro n
  induction n using Nat.strong_induction_on with
  | _ n ih =>
    intro c hc
    rw [digitsRev_eq] at hc
    by_cases hn : n = 0
    · simp [hn] at hc
    · simp only [hn, if_false, List.mem_cons] at hc
      rcases hc with rfl | hc
      · exact ⟨n % 10, Nat.mod_lt _ (by omega), rfl⟩
      · exact ih (n / 10) (Nat.div_lt_self (Nat.pos_of_ne_zero hn) (by omega)) c hc

theorem natToDigits_shape (n : Nat) :
    ∀ c ∈ natToDigits n, ∃ m, m < 10 ∧ c = digitChar10 m := by
  unfold natToDigits
  split
  · intro c hc
    simp only [List.mem_singleton] at hc
    exact ⟨0, by omega, by rw [hc]; rfl⟩
  · intro c hc
    rw [List.mem_reverse] at hc
    exact digitsRev_shape n c hc

theorem digitChar10_facts (m : Nat) (h : m < 10) :
    isDigitCh (digitChar10 m) = true ∧ isSpaceCh (digitChar10 m) = false ∧
    digitChar10 m ≠ '-' ∧ digitChar10 m ≠ '+' ∧ digitChar10 m ≠ 'S' ∧
    digitVal (digitChar10 m) = m := by
  interval_cases m <;> exact ⟨by decide, by decide, by decide, by decide, by decide, by decide⟩

theorem natToDigits_head_shape (n : Nat) :
    ∃ m t, m < 10 ∧ natToDigits n = digitChar10 m :: t := by
  unfold natToDigits
  split
  · exact ⟨0, [], by omega, rfl⟩
  · next hn =>
    have hne : (digitsRev n).reverse ≠ [] := by
      rw [digitsRev_eq]
      simp [hn]
    obtain ⟨d, t, hdt⟩ := List.exists_cons_of_ne_nil hne
    have hd : d ∈ digitsRev n := by
      rw [← List.mem_reverse, hdt]
      simp
    obtain ⟨m, hm, rfl⟩ := digitsRev_shape n d hd
    exact ⟨m, t, hm, hdt⟩

theorem digitsRev_length_le : ∀ n k : Nat, n < 10 ^ k → (digitsRev n).length ≤ k := by
  intro n
  induction n using Nat.strong_induction_on with
  | _ n ih =>
    intro k hk
    rw [digitsRev_eq]
    by_cases hn : n = 0
    · simp [hn]
    · cases k with
      | zero => simp at hk; omega
      | succ k =>
        have hdiv : n / 10 < 10 ^ k := by
          rw [Nat.div_lt_iff_lt_mul (by omega)]
          calc n < 10 ^ (k + 1) := hk
            _ = 10 ^ k * 10 := by rw [pow_succ]
        simp only [hn, if_false, List.length_cons]
        have := ih (n / 10) (Nat.div_lt_self (Nat.pos_of_ne_zero hn) (by omega)) k hdiv
        omega

theorem natToDigits_length_le (n k : Nat) (hk : 0 < k) (h : n < 10 ^ k) :
    (natToDigits n).length ≤ k := by
  unfold natToDigits
  split
  · simpa using hk
  · rw [List.length_reverse]
    exact digitsRev_length_le n k h

theorem parseNatAcc_digitsRev : ∀ n acc : Nat, ∀ rest : List Char,
    parseNatAcc acc ((digitsRev n).reverse ++ rest) =
      parseNatAcc (acc * 10 ^ (digitsRev n).length + n) rest := by
  intro n
  induction n using Nat.strong_induction_on with
  | _ n ih =>
    intro acc rest
    rw [digitsRev_eq]
    by_cases hn : n = 0
    · simp [hn]
    · have hmod := Nat.mod_lt n (show 0 < 10 by omega)
      obtain ⟨hdig, -, -, -, -, hval⟩ := digitChar10_facts (n % 10) hmod
      simp only [hn, if_false, List.reverse_cons, List.length_cons, List.append_assoc,
        List.singleton_append]
      rw [ih (n / 10) (Nat.div_lt_self (Nat.pos_of_ne_zero hn) (by omega)) acc
        (digitChar10 (n % 10) :: rest)]
      simp only [parseNatAcc, hdig, if_true, hval]
      congr 1
      have hdm := Nat.div_add_mod n 10
      calc 10 * (acc * 10 ^ (digitsRev (n / 10)).length + n / 10) + n % 10
          = acc * (10 ^ (digitsRev (n / 10)).length * 10) + (10 * (n / 10) + n % 10) := by ring
        _ = acc * 10 ^ ((digitsRev (n / 10)).length + 1) + n := by rw [pow_succ, hdm]

theorem parseNatAcc_stop (a : Nat) (c : Char) (t : List Char) (h : isDigitCh c = false) :
    parseNatAcc a (c :: t) = a := by
  simp [parseNatAcc, h]

theorem parseNat_natToDigits (n : Nat) (r : List Char) :
    parseNatAcc 0 (natToDigits n ++ '\n' :: r) = n := by
  unfold natToDigits
  split
  · next hn =>
    subst hn
    simp only [List.singleton_append]
    rw [show parseNatAcc 0 ('0' :: '\n' :: r) = parseNatAcc 0 ('\n' :: r) by
      simp [parseNatAcc, isDigitCh, digitVal]]
    exact parseNatAcc_stop 0 '\n' r (by decide)
  · rw [parseNatAcc_digitsRev n 0 ('\n' :: r)]
    rw [parseNatAcc_stop _ '\n' r (by decide)]
    simp

theorem dropWhile_space_digits (n : Nat) (rest : List Char) :
    (natToDigits n ++ rest).dropWhile isSpaceCh = natToDigits n ++ rest := by
  obtain ⟨m, t, hm, hnt⟩ := natToDigits_head_shape n
  obtain ⟨-, hsp, -, -, -, -⟩ := digitChar10_facts m hm
  rw [hnt]
  simp [List.dropWhile_cons, hsp]

theorem atoiChars_natToDigits (n : Nat) (r : List Char) :
    atoiChars (natToDigits n ++ '\n' :: r) = (n : Int) := by
  obtain ⟨m, t, hm, hnt⟩ := natToDigits_head_shape n
  obtain ⟨-, -, hminus, hplus, -, -⟩ := digitChar10_facts m hm
  have hdw := dropWhile_space_digits n ('\n' :: r)
  rw [hnt] at hdw ⊢
  unfold atoiChars
  simp only [List.cons_append] at hdw ⊢
  rw [hdw]
  simp only [atoiSigned, if_neg hminus, if_neg hplus]
  rw [← List.cons_append, ← hnt, parseNat_natToDigits]

theorem atoiChars_intToDigits (i : Int) (r : List Char) :
    atoiChars (intToDigits i ++ '\n' :: r) = i := by
  unfold intToDigits
  split
  · next hneg =>
    simp only [List.cons_append]
    unfold atoiChars
    rw [show (('-' :: (natToDigits i.natAbs ++ '\n' :: r)).dropWhile isSpaceCh) =
        '-' :: (natToDigits i.natAbs ++ '\n' :: r) by
      simp [List.dropWhile_cons, show isSpaceCh '-' = false by decide]]
    rw [show atoiSigned ('-' :: (natToDigits i.natAbs ++ '\n' :: r)) =
        - (parseNatAcc 0 (natToDigits i.natAbs ++ '\n' :: r) : Int) by
      simp [atoiSigned]]
    rw [parseNat_natToDigits]
    rw [Int.ofNat_natAbs_of_nonpos (le_of_lt hneg)]
    ring
  · next hpos =>
    rw [atoiChars_natToDigits]
    omega

/-! ## Helper lemmas on substring search -/

theorem isPrefixOf_append_self : ∀ (p b : List Char), p.isPrefixOf (p ++ b) = true := by
  intro p b
  induction p with
  | nil => simp [List.isPrefixOf]
  | cons a t ih => simp [List.isPrefixOf, ih]

theorem missesIn_sound : ∀ (p t : List Char), missesIn p t = true →
    ∀ b, p.isPrefixOf (t ++ b) = false := by
  intro p
  induction p with
  | nil => intro t h; simp [missesIn] at h
  | cons a ps ih =>
    intro t h b
    cases t with
    | nil => simp [missesIn] at h
    | cons c ts =>
      by_cases hac : a = c
      · subst hac
        rw [missesIn, if_pos rfl] at h
        simpa [List.isPrefixOf] using ih ts h b
      · simp [List.isPrefixOf, hac]

theorem missesIn_cons_ne (p t : Char) (ps ts : List Char) (h : p ≠ t) :
    missesIn (p :: ps) (t :: ts) = true := by
  rw [missesIn, if_neg h]

theorem findSubAux_boundary (pat : List Char) : ∀ (A B : List Char) (i : Nat),
    pat.isPrefixOf B = true →
    (∀ j, j < A.length → pat.isPrefixOf (A.drop j ++ B) = false) →
    findSubAux pat (A ++ B) i = some (i + A.length) := by
  intro A
  induction A with
  | nil =>
    intro B i hB _
    simp only [List.nil_append, List.length_nil, Nat.add_zero]
    cases B with
    | nil => simp [findSubAux, hB]
    | cons c t => simp [findSubAux, hB]
  | cons a A ih =>
    intro B i hB hA
    have h0 : pat.isPrefixOf ((a :: A) ++ B) = false := by
      have h := hA 0 (by simp)
      simpa using h
    simp only [List.cons_append] at h0 ⊢
    rw [findSubAux, if_neg (by simp [h0])]
    rw [ih B (i + 1) hB (fun j hj => by
      have h := hA (j + 1) (by simpa using Nat.succ_lt_succ hj)
      simpa using h)]
    simp only [List.length_cons]
    congr 1
    omega

theorem findSub_boundary (pat A B : List Char)
    (hB : pat.isPrefixOf B = true)
    (hA : ∀ j, j < A.length → pat.isPrefixOf (A.drop j ++ B) = false) :
    findSub pat (A ++ B) = some A.length := by
  unfold findSub
  rw [findSubAux_boundary pat A B 0 hB hA]
  simp

theorem noEarlyMarker_sound (pat A : List Char) (h : noEarlyMarker pat A = true) :
    ∀ j, j < A.length → ∀ B, pat.isPrefixOf (A.drop j ++ B) = false := by
  intro j hj B
  have hm : missesIn pat (A.drop j) = true := by
    have hall := List.all_eq_true.mp h j (List.mem_range.mpr hj)
    simpa using hall
  exact missesIn_sound pat (A.drop j) hm B

theorem drop_head_mem (l : List Char) : ∀ k : Nat, k < l.length →
    ∃ d t, l.drop k = d :: t ∧ d ∈ l := by
  induction l with
  | nil => intro k h; simp at h
  | cons a l ih =>
    intro k h
    cases k with
    | zero => exact ⟨a, l, rfl, by simp⟩
    | succ k =>
      obtain ⟨d, t, h1, h2⟩ := ih k (by simpa using h)
      exact ⟨d, t, by simpa using h1, by simp [h2]⟩

theorem stderr_hdr_no_early (derr : List Char)
    (hd : ∀ c ∈ derr, ∃ m, m < 10 ∧ c = digitChar10 m) :
    ∀ j, j < ("STDERR_LEN:".toList ++ (derr ++ ['\n'])).length →
      ∀ B, "STDERR:".toList.isPrefixOf
        (("STDERR_LEN:".toList ++ (derr ++ ['\n'])).drop j ++ B) = false := by
  intro j hj B
  have hlen11 : ("STDERR_LEN:".toList).length = 11 := by decide
  by_cases hj10 : j ≤ 10
  · rw [List.drop_append_of_le_length (by omega)]
    rw [List.append_assoc]
    apply missesIn_sound
    interval_cases j <;> rfl
  · have hjk : ∃ k, j = 11 + k := ⟨j - 11, by omega⟩
    obtain ⟨k, rfl⟩ := hjk
    have hdrop : ("STDERR_LEN:".toList ++ (derr ++ ['\n'])).drop (11 + k) =
        (derr ++ ['\n']).drop k := by
      rw [← hlen11, List.drop_append]
    rw [hdrop]
    have hk : k ≤ derr.length := by
      simp only [List.length_append, List.length_cons, List.length_nil, hlen11] at hj
      omega
    by_cases hkd : k < derr.length
    · obtain ⟨d, t, h1, h2⟩ := drop_head_mem derr k hkd
      obtain ⟨m, hm, rfl⟩ := hd d h2
      rw [List.drop_append_of_le_length (by omega), h1]
      have hS : 'S' ≠ digitChar10 m := by
        interval_cases m <;> decide
      calc ("STDERR:".toList.isPrefixOf (((digitChar10 m :: t) ++ ['\n']) ++ B))
          = "STDERR:".toList.isPrefixOf ([digitChar10 m] ++ (t ++ ['\n'] ++ B)) := by
            simp
        _ = false := missesIn_sound _ _ (missesIn_cons_ne _ _ _ _ hS) _
    · have hke : k = derr.length := by omega
      subst hke
      rw [List.drop_left]
      apply missesIn_sound
      rfl

/-! ## Helper lemmas on the verdict record writer -/

theorem cstr_of_noNul (s : List Char) (h : noNul s = true) : cstr s = s := by
  apply List.takeWhile_eq_self_iff.mpr
  intro c hc
  exact List.all_eq_true.mp h c hc

theorem wHeader_eq (p acc : List Char) (r : Nat) (h0 : 0 < p.length) (h1 : p.length < r) :
    wHeader p (acc, r) = (acc ++ p, r - p.length) := by
  simp [wHeader, h0, h1]

theorem wPayload_eq (p acc : List Char) (r : Nat) (h1 : p.length < r) :
    wPayload p (acc, r) = (acc ++ p, r - p.length) := by
  by_cases h0 : 0 < p.length
  · simp [wPayload, h0, h1]
  · have hp : p = [] := List.length_eq_zero.mp (by omega)
    subst hp
    simp [wPayload]

theorem wNewline_eq (acc : List Char) (r : Nat) (h : 0 < r) :
    wNewline (acc, r) = (acc ++ ['\n'], r - 1) := by
  simp [wNewline, h]

theorem writeStep2_eq (hdr payload acc : List Char) (r : Nat)
    (h0 : 0 < hdr.length) (h1 : hdr.length < r)
    (_hpay : payload.length < r - hdr.length)
    (h3 : 0 < r - hdr.length - payload.length) :
    writeStep2 hdr payload (acc, r) =
      (acc ++ hdr ++ payload ++ ['\n'], r - hdr.length - payload.length - 1) := by
  unfold writeStep2
  rw [if_pos ⟨h0, h1⟩]
  rw [wPayload_eq _ _ _ (by omega)]
  rw [wNewline_eq _ _ (by omega)]

theorem write_result_eq (ec : Int) (out err : List Char)
    (hout : cstr out = out) (herr : cstr err = err)
    (hlo : out.length ≤ 1500) (hle : err.length ≤ 1500)
    (hec : (intToDigits ec).length ≤ 12) :
    write_result_to_mmap ec out err =
      "EXIT_CODE:".toList ++ intToDigits ec ++ ['\n'] ++ "STDOUT_LEN:".toList ++
      natToDigits out.length ++ ['\n'] ++ "STDOUT:".toList ++ out ++ ['\n'] ++
      "STDERR_LEN:".toList ++ natToDigits err.length ++ ['\n'] ++ "STDERR:".toList ++
      err ++ ['\n'] := by
  have hL2 : (natToDigits out.length).length ≤ 4 :=
    natToDigits_length_le _ 4 (by omega) (by omega)
  have hL3 : (natToDigits err.length).length ≤ 4 :=
    natToDigits_length_le _ 4 (by omega) (by omega)
  have hten : ("EXIT_CODE:".toList).length = 10 := by decide
  have helen : ("STDOUT_LEN:".toList).length = 11 := by decide
  have hslen : ("STDERR_LEN:".toList).length = 11 := by decide
  have hso : ("\nSTDOUT:".toList).length = 8 := by decide
  have hse : ("\nSTDERR:".toList).length = 8 := by decide
  have hp1len : ("EXIT_CODE:".toList ++ intToDigits ec ++ ['\n']).length =
      11 + (intToDigits ec).length := by
    simp [List.length_append, hten]
    omega
  have hh2len : ("STDOUT_LEN:".toList ++ natToDigits out.length ++ "\nSTDOUT:".toList).length =
      19 + (natToDigits out.length).length := by
    simp [List.length_append, helen, hso]
    omega
  have hh3len : ("STDERR_LEN:".toList ++ natToDigits err.length ++ "\nSTDERR:".toList).length =
      19 + (natToDigits err.length).length := by
    simp [List.length_append, hslen, hse]
    omega
  simp only [write_result_to_mmap, hout, herr, MMAP_SIZE]
  rw [wHeader_eq _ _ _ (by omega) (by omega)]
  rw [writeStep2_eq ("STDOUT_LEN:".toList ++ natToDigits out.length ++ "\nSTDOUT:".toList)
    out _ _ (by omega) (by omega) (by omega) (by omega)]
  rw [writeStep2_eq ("STDERR_LEN:".toList ++ natToDigits err.length ++ "\nSTDERR:".toList)
    err _ _ (by omega) (by omega) (by omega) (by omega)]
  simp only [List.nil_append, List.append_assoc]
  have hnl1 : ("\nSTDOUT:".toList : List Char) = '\n' :: "STDOUT:".toList := by decide
  have hnl2 : ("\nSTDERR:".toList : List Char) = '\n' :: "STDERR:".toList := by decide
  rw [hnl1, hnl2]
  simp

/-! ## Theorems for claim C8 -/

/-- C8 counterexample: a stderr payload containing a NUL byte does not
round-trip — the writer measures payloads with `strlen`, so
`'a' NUL 'b'` is stored (and read back) as just `'a'`.  The interfaces
carry C strings, so "arbitrary bytes including NULs" fails. -/
theorem C8_nul_truncation_counterexample :
    parse_stderr (read_mmap_response (write_result_to_mmap 0 []
      ['a', Char.ofNat 0, 'b'])) = ['a'] ∧
    (['a'] : List Char) ≠ ['a', Char.ofNat 0, 'b'] := by
  constructor <;> decide

/-- C8 (amended): for NUL-free payloads that fit the buffers (and whose
bytes do not make the `STDERR_LEN:` marker appear before the record's
own stderr header), the verdict record round-trips through the shared
region and the frontend's parser: the exit code and the stderr payload —
newlines included — are recovered byte-identically, thanks to the
length-prefixed framing.  (The frontend never parses the stdout payload
back, so the round-trip guarantee is about the exit code and stderr.) -/
theorem C8_record_roundtrip (ec : Int) (out err : List Char)
    (hout : noNul out = true) (herr : noNul err = true)
    (hlo : out.length ≤ 1500) (hle : err.length ≤ 1500)
    (hec : (intToDigits ec).length ≤ 12)
    (hmark : noEarlyMarker "STDERR_LEN:".toList
      ("EXIT_CODE:".toList ++ intToDigits ec ++ ['\n'] ++ "STDOUT_LEN:".toList ++
        natToDigits out.length ++ ['\n'] ++ "STDOUT:".toList ++ out ++ ['\n']) = true) :
    parse_exit_code (read_mmap_response (write_result_to_mmap ec out err)) = ec ∧
    parse_stderr (read_mmap_response (write_result_to_mmap ec out err)) = err := by
  have hcout := cstr_of_noNul out hout
  have hcerr := cstr_of_noNul err herr
  have hw := write_result_eq ec out err hcout hcerr hlo hle hec
  set D := intToDigits ec with hD
  set M := natToDigits out.length with hM
  set E := natToDigits err.length with hE
  set A := "EXIT_CODE:".toList ++ D ++ ['\n'] ++ "STDOUT_LEN:".toList ++ M ++ ['\n'] ++
    "STDOUT:".toList ++ out ++ ['\n'] with hA
  set B := "STDERR_LEN:".toList ++ E ++ ['\n'] ++ "STDERR:".toList ++ err ++ ['\n'] with hB
  have hrecAB : write_result_to_mmap ec out err = A ++ B := by
    rw [hw, hA, hB]
    simp [List.append_assoc]
  have h10 : ("EXIT_CODE:".toList).length = 10 := by decide
  have h11 : ("STDERR_LEN:".toList).length = 11 := by decide
  have h11b : ("STDOUT_LEN:".toList).length = 11 := by decide
  have h7 : ("STDOUT:".toList).length = 7 := by decide
  have h7b : ("STDERR:".toList).length = 7 := by decide
  have hMlen : M.length ≤ 4 := natToDigits_length_le _ 4 (by omega) (by omega)
  have hElen : E.length ≤ 4 := natToDigits_length_le _ 4 (by omega) (by omega)
  have hreclen : (A ++ B).length ≤ 4095 := by
    simp only [hA, hB, List.length_append, List.length_cons, List.length_nil]
    omega
  have htake : read_mmap_response (write_result_to_mmap ec out err) = A ++ B := by
    rw [hrecAB]
    exact List.take_of_length_le hreclen
  constructor
  · rw [htake]
    unfold parse_exit_code
    have hfind0 : findSub "EXIT_CODE:".toList (A ++ B) = some 0 := by
      have h := findSub_boundary "EXIT_CODE:".toList [] (A ++ B)
        (by rw [hA]; simp only [List.append_assoc, List.nil_append]
            exact isPrefixOf_append_self _ _)
        (by intro j hj; simp at hj)
      simpa using h
    have hdrop10 : (A ++ B).drop (0 + 10) = D ++ '\n' ::
        ("STDOUT_LEN:".toList ++ M ++ ['\n'] ++ "STDOUT:".toList ++ out ++ ['\n'] ++ B) := by
      rw [hA]
      simp only [List.append_assoc, List.nil_append, Nat.zero_add]
      rw [← h10, List.drop_left]
      simp [List.append_assoc]
    simp only [hfind0]
    rw [hdrop10, hD]
    exact atoiChars_intToDigits ec _
  · rw [htake]
    unfold parse_stderr
    have hfind : findSub "STDERR_LEN:".toList (A ++ B) = some A.length := by
      apply findSub_boundary
      · rw [hB]
        simp only [List.append_assoc]
        exact isPrefixOf_append_self _ _
      · exact fun j hj => noEarlyMarker_sound _ _ hmark j hj B
    have hBsplit : B = ("STDERR_LEN:".toList ++ (E ++ ['\n'])) ++
        ("STDERR:".toList ++ (err ++ ['\n'])) := by
      rw [hB]
      simp [List.append_assoc]
    have hlen : atoiChars (B.drop 11) = (err.length : Int) := by
      rw [hB]
      simp only [List.append_assoc]
      rw [← h11, List.drop_left]
      rw [hE]
      exact atoiChars_natToDigits err.length _
    have hfind2 : findSub "STDERR:".toList B = some (11 + (E.length + 1)) := by
      rw [hBsplit]
      have hEdig : ∀ c ∈ E, ∃ m, m < 10 ∧ c = digitChar10 m := by
        rw [hE]
        exact natToDigits_shape err.length
      have h := findSub_boundary "STDERR:".toList ("STDERR_LEN:".toList ++ (E ++ ['\n']))
        ("STDERR:".toList ++ (err ++ ['\n'])) (isPrefixOf_append_self _ _)
        (fun j hj => stderr_hdr_no_early E hEdig j hj _)
      rw [h]
      simp only [List.length_append, List.length_cons, List.length_nil, h11]
    simp only [hfind, List.drop_left, hlen, hfind2]
    by_cases herrnil : err = []
    · rw [if_neg]
      · exact herrnil.symm
      · have h0 : err.length = 0 := by simp [herrnil]
        rw [h0]
        simp
    · have hpos : (0 : Int) < err.length := by
        have := List.length_pos.mpr herrnil
        omega
      rw [if_pos ⟨hpos, by omega⟩]
      have hdrop : B.drop (11 + (E.length + 1) + 7) = err ++ ['\n'] := by
        rw [hBsplit]
        have hA2len : ("STDERR_LEN:".toList ++ (E ++ ['\n'])).length = 11 + (E.length + 1) := by
          simp only [List.length_append, List.length_cons, List.length_nil, h11]
        rw [show 11 + (E.length + 1) + 7 =
          ("STDERR_LEN:".toList ++ (E ++ ['\n'])).length + 7 by rw [hA2len]]
        rw [List.drop_append]
        rw [← h7b, List.drop_left]
      rw [hdrop]
      rw [show ((err.length : Int)).toNat = err.length from Int.toNat_ofNat _]
      exact List.take_left err ['\n']

/-- Witness for C8 (amended): a negative exit code with newline-bearing
payloads on both streams. -/
theorem C8_record_roundtrip_witness :
    noNul "hello\nworld".toList = true ∧
    noNul "oops: bad\nline".toList = true ∧
    (parse_exit_code (read_mmap_response
        (write_result_to_mmap (-7) "hello\nworld".toList "oops: bad\nline".toList)) = -7 ∧
      parse_stderr (read_mmap_response
        (write_result_to_mmap (-7) "hello\nworld".toList "oops: bad\nline".toList)) =
        "oops: bad\nline".toList) :=
  ⟨by decide, by decide,
    C8_record_roundtrip (-7) "hello\nworld".toList "oops: bad\nline".toList
      (by decide) (by decide) (by decide) (by decide) (by decide) (by decide)⟩
